import Mathlib

/-!
Verification of the peer call-signaling coordinator of the VeriTalk
repository (`src/src/components/providers/call-provider.tsx`), a
client-local call-lifecycle state machine driven by user actions
(`initiateCall`, `acceptCall`, `rejectCall`, `cancelCall`, `unlockAudio`)
and by signaling messages received on a broadcast channel.

The embedding is shallow: React `useState` fields become the fields of
`CallState`; each JS function becomes a pure Lean function from the state
(plus its arguments) to a new state together with the list of observable
side effects it performs (broadcast publishes, navigation, ringtone
start/stop, alert, and scheduled `setTimeout` resets).  JavaScript
truthiness of the relevant guards (`!userId`, `payload.roomId || null`,
`payload.callerName || 'Unknown'`, `!!payload.isVideo`,
`payload.isVideo ? 'video' : 'audio'`) is modelled explicitly on
`Option String` / `Option Bool`.  Console logging is not modelled: it is
not observable by any claim.  React batches the `setX` calls of one
handler invocation, so a handler is faithfully a single record update.
-/

namespace VeriTalk

/-- `SignalType`: the wire enum `'offer' | 'answer' | 'reject' | 'cancel'`. -/
inductive SignalType where
  | offer
  | answer
  | reject
  | cancel
deriving DecidableEq, Repr

/-- `SignalPayload` of the source: optional fields are `Option`;
an absent JS field is `none`. -/
structure SignalPayload where
  type : SignalType
  callerId : String
  callerName : Option String := none
  receiverId : String
  receiverName : Option String := none
  roomId : Option String := none
  isVideo : Option Bool := none
deriving DecidableEq, Repr

/-- `CallStatus`: `'idle' | 'outgoing' | 'incoming' | 'connected'`. -/
inductive CallStatus where
  | idle
  | outgoing
  | incoming
  | connected
deriving DecidableEq, Repr

/-- The `{ id, name }` objects held by the `caller` / `receiver` state. -/
structure Peer where
  id : String
  name : String
deriving DecidableEq, Repr

/-- The `useState` fields of `CallProvider`.  `ringtonePresent` models
whether `ringtoneRef.current` is non-null (the audio element is rendered
unconditionally, so it is non-null once mounted, but the code does guard
on it). -/
structure CallState where
  status : CallStatus
  caller : Option Peer
  receiver : Option Peer
  roomId : Option String
  isVideoCall : Bool
  userId : Option String
  userName : Option String
  audioUnlocked : Bool
  ringtonePresent : Bool
deriving DecidableEq, Repr

/-- Which fields the two `setTimeout(… , 1000)` callbacks clear:
the answer-handler clears `receiver`, `acceptCall` clears `caller`;
both reset `status` to idle. -/
inductive ResetKind where
  | clearCaller
  | clearReceiver
deriving DecidableEq, Repr

/-- Observable side effects of one handler / action invocation, in
program order. -/
inductive Effect where
  | publish (p : SignalPayload)
  | navigate (url : String)
  | ringStart
  | ringStop
  | alertBox (msg : String)
  | timeout (ms : Nat) (k : ResetKind)
deriving DecidableEq, Repr

/-- JS truthiness of a nullable string: `null`/`undefined` and the empty
string are falsy. -/
def jsTruthy : Option String → Bool
  | some s => s != ""
  | none => false

/-- `x || d` on a nullable string against a string default. -/
def jsOrDefault (x : Option String) (d : String) : String :=
  match x with
  | some s => if s = "" then d else s
  | none => d

/-- `x || null` on a nullable string: empty string collapses to null. -/
def jsOrNull (x : Option String) : Option String :=
  match x with
  | some s => if s = "" then none else some s
  | none => none

/-- String interpolation of a possibly-undefined value:
`` `${x}` `` renders `undefined` as the string "undefined". -/
def jsStr : Option String → String
  | some s => s
  | none => "undefined"

/-- `payload.isVideo ? 'video' : 'audio'` (truthiness of `Option Bool`). -/
def jsMode (v : Option Bool) : String :=
  if v.getD false then "video" else "audio"

/-- `!!payload.isVideo`. -/
def jsBool (v : Option Bool) : Bool :=
  v.getD false

/-- `playRing`: plays only when the audio element exists and the unlocked
flag is true (otherwise it merely warns).  It reads the render-time state
captured by the handler closure, i.e. the state at handler entry. -/
def playRingFx (s : CallState) : List Effect :=
  if s.ringtonePresent && s.audioUnlocked then [Effect.ringStart] else []

/-- Lexicographic strict comparison of char lists by code unit, the
comparison JS string `<` performs (identical to code-point order for the
basic-multilingual-plane identifiers used here). -/
def charListLt : List Char → List Char → Bool
  | _, [] => false
  | [], _ :: _ => true
  | c :: cs, d :: ds =>
    if c.toNat < d.toNat then true
    else if d.toNat < c.toNat then false
    else charListLt cs ds

/-- `a <= b` for JS strings: not `b < a`. -/
def jsStrLe (a b : String) : Bool :=
  !charListLt b.data a.data

/-- The room identifier derivation of `initiateCall`:
`[userId, receiverId].sort().join('-')`.  JS default sort on two strings
is ascending lexicographic comparison, so the result is the smaller
string, the separator, then the larger one. -/
def sortJoin (a b : String) : String :=
  if jsStrLe a b then a ++ "-" ++ b else b ++ "-" ++ a

/-- Applying one of the scheduled `setTimeout` resets to the state that
exists when the timer fires. -/
def applyReset (k : ResetKind) (s : CallState) : CallState :=
  match k with
  | .clearCaller => { s with status := .idle, caller := none }
  | .clearReceiver => { s with status := .idle, receiver := none }

/-- The `broadcast`/`call-signal` handler of the realtime effect.  The
effect body starts with `if (!userId) return`, so the handler exists only
when the local identity is truthy; it then filters messages involving the
local id and runs the four branches A–D.  The four source `if`s are
sequential, but their conditions test the message `type`, which is a
single enum value, so at most one branch fires and a `match` on the type
is equivalent. -/
def handleSignal (s : CallState) (p : SignalPayload) : CallState × List Effect :=
  if !jsTruthy s.userId then (s, [])
  else
    let uid := s.userId.getD ""
    if p.receiverId != uid && p.callerId != uid then (s, [])
    else
      match p.type with
      | .offer =>
        -- A. Incoming Call (Receiver's side)
        if p.receiverId = uid then
          if s.status ≠ .idle then (s, [])
          else
            ({ s with
                caller := some ⟨p.callerId, jsOrDefault p.callerName "Unknown"⟩,
                roomId := jsOrNull p.roomId,
                isVideoCall := jsBool p.isVideo,
                status := .incoming },
             playRingFx s)
        else (s, [])
      | .answer =>
        -- B. Call Accepted (By Receiver, detected by Caller)
        if p.callerId = uid then
          ({ s with status := .connected },
           [Effect.ringStop,
            Effect.navigate ("/meeting?room=" ++ jsStr p.roomId ++ "&mode=" ++ jsMode p.isVideo),
            Effect.timeout 1000 .clearReceiver])
        else (s, [])
      | .reject =>
        -- C. Call Rejected (By Receiver, detected by Caller)
        if p.callerId = uid then
          ({ s with status := .idle, receiver := none },
           [Effect.ringStop,
            Effect.alertBox (jsOrDefault p.receiverName "User" ++ " declined the call.")])
        else (s, [])
      | .cancel =>
        -- D. Cancelled by Caller (Detected by Receiver)
        if p.receiverId = uid then
          ({ s with status := .idle, caller := none }, [Effect.ringStop])
        else (s, [])

/-- `initiateCall(receiverId, receiverName, isVideo)`: guarded only by
`if (!userId || !userName) return`; plays the ringback unconditionally
when the audio element exists, sets the unlocked flag, derives the room
id, stores receiver/roomId/isVideo, moves to `outgoing` and publishes the
offer. -/
def initiateCall (s : CallState) (rid rname : String) (isVideo : Bool) :
    CallState × List Effect :=
  if !(jsTruthy s.userId && jsTruthy s.userName) then (s, [])
  else
    let uid := s.userId.getD ""
    let uname := s.userName.getD ""
    let ringFx := if s.ringtonePresent then [Effect.ringStart] else []
    let newRoomId := sortJoin uid rid
    ({ s with
        audioUnlocked := true,
        roomId := some newRoomId,
        receiver := some ⟨rid, rname⟩,
        isVideoCall := isVideo,
        status := .outgoing },
     ringFx ++
       [Effect.publish
         { type := .offer, callerId := uid, callerName := some uname,
           receiverId := rid, roomId := some newRoomId,
           isVideo := some isVideo }])

/-- `acceptCall()`: guarded by `if (!caller || !roomId || !userId) return`
(note: no check of `status`); stops the ring, moves to `connected`,
publishes the answer carrying the original caller id, navigates to the
room, and schedules the 1 s reset that clears `caller`. -/
def acceptCall (s : CallState) : CallState × List Effect :=
  if !(s.caller.isSome && jsTruthy s.roomId && jsTruthy s.userId) then (s, [])
  else
    let c := s.caller.getD ⟨"", ""⟩
    let rid := s.roomId.getD ""
    let uid := s.userId.getD ""
    ({ s with status := .connected },
     [Effect.ringStop,
      Effect.publish
        { type := .answer, callerId := c.id, receiverId := uid,
          roomId := some rid, isVideo := some s.isVideoCall },
      Effect.navigate
        ("/meeting?room=" ++ rid ++ "&mode=" ++
          (if s.isVideoCall then "video" else "audio")),
      Effect.timeout 1000 .clearCaller])

/-- `rejectCall()`: guarded by `if (!caller || !userId) return`; stops the
ring, resets to idle clearing `caller`, publishes the reject. -/
def rejectCall (s : CallState) : CallState × List Effect :=
  if !(s.caller.isSome && jsTruthy s.userId) then (s, [])
  else
    let c := s.caller.getD ⟨"", ""⟩
    let uid := s.userId.getD ""
    ({ s with status := .idle, caller := none },
     [Effect.ringStop,
      Effect.publish
        { type := .reject, callerId := c.id, receiverId := uid,
          receiverName := s.userName }])

/-- `cancelCall()`: guarded by `if (!receiver || !userId) return`; stops
the ring, resets to idle clearing `receiver`, publishes the cancel. -/
def cancelCall (s : CallState) : CallState × List Effect :=
  if !(s.receiver.isSome && jsTruthy s.userId) then (s, [])
  else
    let r := s.receiver.getD ⟨"", ""⟩
    let uid := s.userId.getD ""
    ({ s with status := .idle, receiver := none },
     [Effect.ringStop,
      Effect.publish
        { type := .cancel, callerId := uid, receiverId := r.id }])

/-- `unlockAudio()`: early-returns when the flag is already set or the
audio element is absent; otherwise attempts the play/pause cycle inside a
try/catch and sets the flag on both the success and the failure path.
`playOk` is the outcome of the `await …play()` attempt; on failure the
catch swallows the error, so the function itself never throws — modelled
by the `Except` result always being `.ok`. -/
def unlockAudioE (s : CallState) (playOk : Bool) :
    Except String (CallState × List Effect) :=
  if s.audioUnlocked || !s.ringtonePresent then .ok (s, [])
  else if playOk then
    .ok ({ s with audioUnlocked := true }, [Effect.ringStart, Effect.ringStop])
  else
    .ok ({ s with audioUnlocked := true }, [Effect.ringStart])

/-- The state after a (sequence of) `unlockAudio()` call(s). -/
def unlockAudioState (s : CallState) (playOk : Bool) : CallState :=
  match unlockAudioE s playOk with
  | .ok (s1, _) => s1
  | .error _ => s

/-- The events that drive one mounted coordinator: the user actions the
overlay can invoke, and a received broadcast message. -/
inductive CoordEvent where
  | acceptE
  | rejectE
  | cancelE
  | signalE (p : SignalPayload)
deriving DecidableEq, Repr

/-- One coordinator step on an event. -/
def stepEvent (s : CallState) : CoordEvent → CallState × List Effect
  | .acceptE => acceptCall s
  | .rejectE => rejectCall s
  | .cancelE => cancelCall s
  | .signalE p => handleSignal s p

/-- Running a sequence of events, accumulating the effects. -/
def runEvents : CallState → List CoordEvent → CallState × List Effect
  | s, [] => (s, [])
  | s, e :: es =>
    let r1 := stepEvent s e
    let r2 := runEvents r1.1 es
    (r2.1, r1.2 ++ r2.2)

/-- Events pertaining to one incoming call whose caller is `cid` and
whose offer carried no (truthy) room id: the local user actions, and
signals originating from that caller (their duplicate offers, which like
the original carry no truthy `roomId`, and their cancels, which the
source sends without a `roomId` field). -/
def callScoped (cid : String) : CoordEvent → Bool
  | .signalE p => p.callerId == cid && jsOrNull p.roomId == none
  | _ => true

/-- Invariant of the room-less incoming call of claim C10. -/
def c10Inv (uid : String) (s : CallState) : Prop :=
  s.userId = some uid ∧ s.roomId = none ∧ s.receiver = none ∧
    (s.status = .idle ∨ s.status = .incoming)

/- Concrete example states used by the end-to-end scenarios and the
counterexamples. -/

/-- A freshly mounted provider for caller `u1` (display name `Alice`). -/
def aliceState : CallState :=
  { status := .idle, caller := none, receiver := none, roomId := none,
    isVideoCall := false, userId := some "u1", userName := some "Alice",
    audioUnlocked := false, ringtonePresent := true }

/-- A freshly mounted provider for receiver `u2` (display name `Bob`). -/
def bobState : CallState :=
  { status := .idle, caller := none, receiver := none, roomId := none,
    isVideoCall := false, userId := some "u2", userName := some "Bob",
    audioUnlocked := false, ringtonePresent := true }

/-- The offer `initiateCall` publishes for the `u1 → u2` video call. -/
def offerU1U2 : SignalPayload :=
  { type := .offer, callerId := "u1", callerName := some "Alice",
    receiverId := "u2", roomId := some "u1-u2", isVideo := some true }

/-- `u1` after initiating the video call to `u2`. -/
def aliceOutgoing : CallState :=
  (initiateCall aliceState "u2" "Bob" true).1

/-- `u2` after receiving the offer while idle. -/
def bobIncoming : CallState :=
  (handleSignal bobState offerU1U2).1

/-- The answer `acceptCall` publishes for that call. -/
def answerU1U2 : SignalPayload :=
  { type := .answer, callerId := "u1", receiverId := "u2",
    roomId := some "u1-u2", isVideo := some true }

/-- A stale answer of an earlier call in which `u1` was the caller. -/
def staleAnswerAlice : SignalPayload :=
  { type := .answer, callerId := "u1", receiverId := "u9",
    roomId := some "u1-u9", isVideo := some false }

/-- A stale answer of an earlier call in which `u2` was the caller. -/
def staleAnswerBob : SignalPayload :=
  { type := .answer, callerId := "u2", receiverId := "u3",
    roomId := some "u2-u3", isVideo := some false }

/-- `u2` after the incoming call from `u1` was hijacked by the stale
answer `staleAnswerBob` and the scheduled reset fired: status is back to
idle but `caller` and `roomId` still hold the incoming call's data. -/
def bobStaleIdle : CallState :=
  applyReset .clearReceiver (handleSignal bobIncoming staleAnswerBob).1

/-- An offer from `u1` to `u2` whose `roomId` field is absent. -/
def roomlessOffer : SignalPayload :=
  { type := .offer, callerId := "u1", callerName := some "Alice",
    receiverId := "u2" }

/-! ## Theorems -/

/-! ### Branch characterizations of the broadcast handler -/

theorem handleSignal_no_user (s : CallState) (p : SignalPayload)
    (hu : jsTruthy s.userId = false) : handleSignal s p = (s, []) := by
  simp [handleSignal, hu]

theorem handleSignal_offer_not_me (s : CallState) (p : SignalPayload)
    (ht : p.type = .offer) (hr : p.receiverId ≠ s.userId.getD "") :
    handleSignal s p = (s, []) := by
  simp [handleSignal, ht, hr]

theorem handleSignal_offer_busy (s : CallState) (p : SignalPayload)
    (ht : p.type = .offer) (hst : s.status ≠ .idle) :
    handleSignal s p = (s, []) := by
  simp [handleSignal, ht, hst]

theorem handleSignal_offer_fires (s : CallState) (p : SignalPayload)
    (hu : jsTruthy s.userId = true) (ht : p.type = .offer)
    (hr : p.receiverId = s.userId.getD "") (hst : s.status = .idle) :
    handleSignal s p =
      ({ s with
          caller := some ⟨p.callerId, jsOrDefault p.callerName "Unknown"⟩,
          roomId := jsOrNull p.roomId,
          isVideoCall := jsBool p.isVideo,
          status := .incoming },
       playRingFx s) := by
  simp [handleSignal, ht, hu, hr, hst]

theorem handleSignal_answer_not_me (s : CallState) (p : SignalPayload)
    (ht : p.type = .answer) (hc : p.callerId ≠ s.userId.getD "") :
    handleSignal s p = (s, []) := by
  simp [handleSignal, ht, hc]

theorem handleSignal_answer_fires (s : CallState) (p : SignalPayload)
    (hu : jsTruthy s.userId = true) (ht : p.type = .answer)
    (hc : p.callerId = s.userId.getD "") :
    handleSignal s p =
      ({ s with status := .connected },
       [Effect.ringStop,
        Effect.navigate ("/meeting?room=" ++ jsStr p.roomId ++ "&mode=" ++ jsMode p.isVideo),
        Effect.timeout 1000 .clearReceiver]) := by
  simp [handleSignal, ht, hu, hc]

theorem handleSignal_reject_not_me (s : CallState) (p : SignalPayload)
    (ht : p.type = .reject) (hc : p.callerId ≠ s.userId.getD "") :
    handleSignal s p = (s, []) := by
  simp [handleSignal, ht, hc]

theorem handleSignal_reject_fires (s : CallState) (p : SignalPayload)
    (hu : jsTruthy s.userId = true) (ht : p.type = .reject)
    (hc : p.callerId = s.userId.getD "") :
    handleSignal s p =
      ({ s with status := .idle, receiver := none },
       [Effect.ringStop,
        Effect.alertBox (jsOrDefault p.receiverName "User" ++ " declined the call.")]) := by
  simp [handleSignal, ht, hu, hc]

theorem handleSignal_cancel_not_me (s : CallState) (p : SignalPayload)
    (ht : p.type = .cancel) (hr : p.receiverId ≠ s.userId.getD "") :
    handleSignal s p = (s, []) := by
  simp [handleSignal, ht, hr]

theorem handleSignal_cancel_fires (s : CallState) (p : SignalPayload)
    (hu : jsTruthy s.userId = true) (ht : p.type = .cancel)
    (hr : p.receiverId = s.userId.getD "") :
    handleSignal s p =
      ({ s with status := .idle, caller := none }, [Effect.ringStop]) := by
  simp [handleSignal, ht, hu, hr]

/-! ### Characterizations of the user actions -/

theorem initiateCall_noop (s : CallState) (rid rname : String) (iv : Bool)
    (h : (jsTruthy s.userId && jsTruthy s.userName) = false) :
    initiateCall s rid rname iv = (s, []) := by
  simp [initiateCall, h]

theorem initiateCall_fires (s : CallState) (rid rname : String) (iv : Bool)
    (h : (jsTruthy s.userId && jsTruthy s.userName) = true) :
    initiateCall s rid rname iv =
      ({ s with
          audioUnlocked := true,
          roomId := some (sortJoin (s.userId.getD "") rid),
          receiver := some ⟨rid, rname⟩,
          isVideoCall := iv,
          status := .outgoing },
       (if s.ringtonePresent then [Effect.ringStart] else []) ++
         [Effect.publish
           { type := .offer, callerId := s.userId.getD "",
             callerName := some (s.userName.getD ""), receiverId := rid,
             roomId := some (sortJoin (s.userId.getD "") rid),
             isVideo := some iv }]) := by
  simp [initiateCall, h]

theorem acceptCall_noop (s : CallState)
    (h : (s.caller.isSome && jsTruthy s.roomId && jsTruthy s.userId) = false) :
    acceptCall s = (s, []) := by
  simp [acceptCall, h]

theorem acceptCall_fires (s : CallState)
    (h : (s.caller.isSome && jsTruthy s.roomId && jsTruthy s.userId) = true) :
    acceptCall s =
      ({ s with status := .connected },
       [Effect.ringStop,
        Effect.publish
          { type := .answer, callerId := (s.caller.getD ⟨"", ""⟩).id,
            receiverId := s.userId.getD "",
            roomId := some (s.roomId.getD ""),
            isVideo := some s.isVideoCall },
        Effect.navigate
          ("/meeting?room=" ++ s.roomId.getD "" ++ "&mode=" ++
            (if s.isVideoCall then "video" else "audio")),
        Effect.timeout 1000 .clearCaller]) := by
  simp [acceptCall, h]

theorem rejectCall_noop (s : CallState)
    (h : (s.caller.isSome && jsTruthy s.userId) = false) :
    rejectCall s = (s, []) := by
  simp [rejectCall, h]

theorem rejectCall_fires (s : CallState)
    (h : (s.caller.isSome && jsTruthy s.userId) = true) :
    rejectCall s =
      ({ s with status := .idle, caller := none },
       [Effect.ringStop,
        Effect.publish
          { type := .reject, callerId := (s.caller.getD ⟨"", ""⟩).id,
            receiverId := s.userId.getD "",
            receiverName := s.userName }]) := by
  simp [rejectCall, h]

theorem cancelCall_noop (s : CallState)
    (h : (s.receiver.isSome && jsTruthy s.userId) = false) :
    cancelCall s = (s, []) := by
  simp [cancelCall, h]

theorem cancelCall_fires (s : CallState)
    (h : (s.receiver.isSome && jsTruthy s.userId) = true) :
    cancelCall s =
      ({ s with status := .idle, receiver := none },
       [Effect.ringStop,
        Effect.publish
          { type := .cancel, callerId := s.userId.getD "",
            receiverId := (s.receiver.getD ⟨"", ""⟩).id }]) := by
  simp [cancelCall, h]

/-- The broadcast handler never writes `roomId` outside the offer
branch. -/
theorem handleSignal_roomId_preserved (s : CallState) (p : SignalPayload)
    (ht : p.type ≠ .offer) : (handleSignal s p).1.roomId = s.roomId := by
  by_cases hu : jsTruthy s.userId = true
  · cases hp : p.type
    · exact absurd hp ht
    · by_cases hc : p.callerId = s.userId.getD ""
      · rw [handleSignal_answer_fires s p hu hp hc]
      · rw [handleSignal_answer_not_me s p hp hc]
    · by_cases hc : p.callerId = s.userId.getD ""
      · rw [handleSignal_reject_fires s p hu hp hc]
      · rw [handleSignal_reject_not_me s p hp hc]
    · by_cases hr : p.receiverId = s.userId.getD ""
      · rw [handleSignal_cancel_fires s p hu hp hr]
      · rw [handleSignal_cancel_not_me s p hp hr]
  · rw [handleSignal_no_user s p (by simpa using hu)]

/-- C5: for user `u1` (resolved identity `Alice`) calling `u2` with video
from idle, the caller moves to `outgoing` with room id `u1-u2` — the
lexicographically sorted join — and publishes the offer carrying
callerId `u1`, receiverId `u2`, roomId `u1-u2`, isVideo true; a
coordinator for `u2` in idle receiving that offer moves to `incoming`
with caller `{u1, Alice}`, roomId `u1-u2`, and isVideoCall true. -/
theorem c5_offer_scenario :
    aliceOutgoing.status = .outgoing ∧
    aliceOutgoing.roomId = some "u1-u2" ∧
    sortJoin "u1" "u2" = "u1-u2" ∧
    Effect.publish offerU1U2 ∈ (initiateCall aliceState "u2" "Bob" true).2 ∧
    bobIncoming =
      { bobState with
          status := .incoming, caller := some ⟨"u1", "Alice"⟩,
          roomId := some "u1-u2", isVideoCall := true } := by
  decide

/-- C6: accepting in `incoming` moves the receiver to `connected`,
publishes the answer with the original caller's id as callerId, its own
id as receiverId, the stored roomId and isVideo flag, navigates to the
room in video mode, and schedules the 1000 ms reset whose firing returns
the status to idle; the caller, handling that answer in `outgoing`, moves
to `connected`, navigates to the same room and mode, and its scheduled
1000 ms reset likewise returns it to idle. -/
theorem c6_accept_scenario :
    bobIncoming.status = .incoming ∧
    (acceptCall bobIncoming).1.status = .connected ∧
    Effect.publish answerU1U2 ∈ (acceptCall bobIncoming).2 ∧
    Effect.navigate "/meeting?room=u1-u2&mode=video" ∈ (acceptCall bobIncoming).2 ∧
    Effect.timeout 1000 .clearCaller ∈ (acceptCall bobIncoming).2 ∧
    (applyReset .clearCaller (acceptCall bobIncoming).1).status = .idle ∧
    aliceOutgoing.status = .outgoing ∧
    (handleSignal aliceOutgoing answerU1U2).1.status = .connected ∧
    Effect.navigate "/meeting?room=u1-u2&mode=video" ∈ (handleSignal aliceOutgoing answerU1U2).2 ∧
    Effect.timeout 1000 .clearReceiver ∈ (handleSignal aliceOutgoing answerU1U2).2 ∧
    (applyReset .clearReceiver (handleSignal aliceOutgoing answerU1U2).1).status = .idle := by
  decide

/-- C1 counterexample: the claim says an `answer` is actionable only in
`outgoing` and that it leaves the state unchanged in any other state, but
the answer branch of the broadcast handler is guarded only by
`callerId === userId`, not by status: a stale answer addressed to `u1` as
caller, arriving while `u1` is idle, moves the state to `connected`. -/
theorem c1_counterexample :
    aliceState.status = .idle ∧
    (handleSignal aliceState staleAnswerAlice).1.status = .connected ∧
    (handleSignal aliceState staleAnswerAlice).1 ≠ aliceState := by
  decide

/-- C2 counterexample: the claim says terminal transitions clear
`roomId` (equivalently, idle implies no roomId), but no terminal
transition ever clears `roomId`: after `u1` initiates a call to `u2` and
then cancels it, the status is idle yet `roomId` still holds `u1-u2`. -/
theorem c2_counterexample :
    (cancelCall aliceOutgoing).1.status = .idle ∧
    (cancelCall aliceOutgoing).1.receiver = none ∧
    (cancelCall aliceOutgoing).1.roomId = some "u1-u2" := by
  decide

/-- C3 counterexample: `initiateCall` checks only that the identity is
resolved, not the status: invoked while `u1` is already `outgoing`
toward `u2`, a second call toward `u3` overwrites the in-flight
session's `receiver` and `roomId` and publishes a second offer. -/
theorem c3_counterexample :
    aliceOutgoing.status = .outgoing ∧
    (initiateCall aliceOutgoing "u3" "Carol" false).1.receiver ≠ aliceOutgoing.receiver ∧
    (initiateCall aliceOutgoing "u3" "Carol" false).1.roomId ≠ aliceOutgoing.roomId ∧
    Effect.publish
        { type := .offer, callerId := "u1", callerName := some "Alice",
          receiverId := "u3", roomId := some "u1-u3", isVideo := some false }
      ∈ (initiateCall aliceOutgoing "u3" "Carol" false).2 := by
  decide

/-- C4 counterexample: `acceptCall` is guarded by the presence of
`caller`, `roomId` and `userId`, not by `status = incoming`.  In the
reachable state `bobStaleIdle` — obtained by receiving an offer from
`u1`, then a stale answer of an earlier call in which `u2` was the
caller, then the scheduled reset — the status is idle while `caller` and
`roomId` are still populated, so `acceptCall` transitions to `connected`
and publishes an answer instead of being a no-op. -/
theorem c4_counterexample :
    bobStaleIdle.status = .idle ∧
    (acceptCall bobStaleIdle).1 ≠ bobStaleIdle ∧
    (acceptCall bobStaleIdle).1.status = .connected ∧
    Effect.publish answerU1U2 ∈ (acceptCall bobStaleIdle).2 := by
  decide

/-- C7 counterexample: the claim asserts roomId uniqueness per unordered
pair for every pair of identifier strings, but the sorted join is
ambiguous when an identifier contains the separator: the distinct
unordered pairs `{a, b-c}` and `{a-b, c}` derive the same room id. -/
theorem c7_counterexample :
    sortJoin "a" "b-c" = sortJoin "a-b" "c" ∧
    ¬(("a" = "a-b" ∧ "b-c" = "c") ∨ ("a" = "c" ∧ "b-c" = "a-b")) := by
  decide

/-- C1 (amended): only the offer branch of the broadcast handler is
status-guarded — a stale or duplicate offer arriving in any state other
than idle leaves the state (and effects) unchanged; the answer, reject
and cancel branches are guarded solely by identity, so with the local
identity resolved a stale answer naming the local user as caller drives
the status to connected from ANY state, and a stale reject or cancel
likewise forces the status to idle from any state. -/
theorem c1_amended (s : CallState) (p : SignalPayload) :
    (p.type = .offer → s.status ≠ .idle → handleSignal s p = (s, [])) ∧
    (p.type = .answer → jsTruthy s.userId = true →
      p.callerId = s.userId.getD "" →
      (handleSignal s p).1.status = .connected) ∧
    (p.type = .reject → jsTruthy s.userId = true →
      p.callerId = s.userId.getD "" →
      (handleSignal s p).1.status = .idle) ∧
    (p.type = .cancel → jsTruthy s.userId = true →
      p.receiverId = s.userId.getD "" →
      (handleSignal s p).1.status = .idle) := by
  refine ⟨fun ht hst => handleSignal_offer_busy s p ht hst,
          fun ht hu hc => ?_, fun ht hu hc => ?_, fun ht hu hr => ?_⟩
  · rw [handleSignal_answer_fires s p hu ht hc]
  · rw [handleSignal_reject_fires s p hu ht hc]
  · rw [handleSignal_cancel_fires s p hu ht hr]

theorem c1_amended_witness :
    (handleSignal aliceState staleAnswerAlice).1.status = .connected :=
  (c1_amended aliceState staleAnswerAlice).2.1 (by decide) (by decide) (by decide)

/-- C2 (amended): on every terminal transition the status is reset to
idle and the acting peer field is cleared, but `roomId` is never cleared
— no action and no handler branch outside the offer branch writes it, and
the scheduled resets leave it untouched — so an idle status does not
imply an empty `roomId`. -/
theorem c2_amended (s : CallState) (p : SignalPayload) :
    ((cancelCall s).1.roomId = s.roomId ∧
     (rejectCall s).1.roomId = s.roomId ∧
     (acceptCall s).1.roomId = s.roomId ∧
     (p.type ≠ .offer → (handleSignal s p).1.roomId = s.roomId) ∧
     (∀ k, (applyReset k s).roomId = s.roomId)) ∧
    ((s.receiver.isSome && jsTruthy s.userId) = true →
      (cancelCall s).1.status = .idle ∧ (cancelCall s).1.receiver = none) ∧
    ((s.caller.isSome && jsTruthy s.userId) = true →
      (rejectCall s).1.status = .idle ∧ (rejectCall s).1.caller = none) ∧
    (∀ k, (applyReset k s).status = .idle) ∧
    (applyReset .clearCaller s).caller = none ∧
    (applyReset .clearReceiver s).receiver = none ∧
    (p.type = .reject → jsTruthy s.userId = true →
      p.callerId = s.userId.getD "" →
      (handleSignal s p).1.status = .idle ∧ (handleSignal s p).1.receiver = none) ∧
    (p.type = .cancel → jsTruthy s.userId = true →
      p.receiverId = s.userId.getD "" →
      (handleSignal s p).1.status = .idle ∧ (handleSignal s p).1.caller = none) := by
  refine ⟨⟨?_, ?_, ?_, handleSignal_roomId_preserved s p, fun k => ?_⟩,
          fun h => ?_, fun h => ?_, fun k => ?_, ?_, ?_,
          fun ht hu hc => ?_, fun ht hu hr => ?_⟩
  · by_cases h : (s.receiver.isSome && jsTruthy s.userId) = true
    · rw [cancelCall_fires s h]
    · rw [cancelCall_noop s (by simpa using h)]
  · by_cases h : (s.caller.isSome && jsTruthy s.userId) = true
    · rw [rejectCall_fires s h]
    · rw [rejectCall_noop s (by simpa using h)]
  · by_cases h : (s.caller.isSome && jsTruthy s.roomId && jsTruthy s.userId) = true
    · rw [acceptCall_fires s h]
    · rw [acceptCall_noop s (by simpa using h)]
  · cases k <;> rfl
  · rw [cancelCall_fires s h]
    exact ⟨rfl, rfl⟩
  · rw [rejectCall_fires s h]
    exact ⟨rfl, rfl⟩
  · cases k <;> rfl
  · rfl
  · rfl
  · rw [handleSignal_reject_fires s p hu ht hc]
    exact ⟨rfl, rfl⟩
  · rw [handleSignal_cancel_fires s p hu ht hr]
    exact ⟨rfl, rfl⟩

theorem c2_amended_witness :
    (cancelCall aliceOutgoing).1.status = .idle ∧
      (cancelCall aliceOutgoing).1.receiver = none :=
  (c2_amended aliceOutgoing offerU1U2).2.1 (by decide)

/-- C3 (amended): `initiateCall` performs no status check.  When the
local identity is unresolved it is a no-op; whenever the identity is
resolved — including while a session is in flight — it overwrites
`receiver`, `roomId` and `isVideoCall`, forces the status to outgoing and
publishes a fresh offer, clobbering any in-flight session. -/
theorem c3_amended (s : CallState) (rid rname : String) (iv : Bool) :
    ((jsTruthy s.userId && jsTruthy s.userName) = false →
      initiateCall s rid rname iv = (s, [])) ∧
    ((jsTruthy s.userId && jsTruthy s.userName) = true →
      (initiateCall s rid rname iv).1.status = .outgoing ∧
      (initiateCall s rid rname iv).1.receiver = some ⟨rid, rname⟩ ∧
      (initiateCall s rid rname iv).1.roomId =
        some (sortJoin (s.userId.getD "") rid) ∧
      Effect.publish
          { type := .offer, callerId := s.userId.getD "",
            callerName := some (s.userName.getD ""), receiverId := rid,
            roomId := some (sortJoin (s.userId.getD "") rid),
            isVideo := some iv }
        ∈ (initiateCall s rid rname iv).2) := by
  refine ⟨fun h => initiateCall_noop s rid rname iv h, fun h => ?_⟩
  rw [initiateCall_fires s rid rname iv h]
  refine ⟨rfl, rfl, rfl, ?_⟩
  simp

theorem c3_amended_witness :
    (initiateCall aliceOutgoing "u3" "Carol" false).1.status = .outgoing ∧
      (initiateCall aliceOutgoing "u3" "Carol" false).1.receiver =
        some ⟨"u3", "Carol"⟩ ∧
      (initiateCall aliceOutgoing "u3" "Carol" false).1.roomId =
        some (sortJoin "u1" "u3") ∧
      Effect.publish
          { type := .offer, callerId := "u1", callerName := some "Alice",
            receiverId := "u3", roomId := some (sortJoin "u1" "u3"),
            isVideo := some false }
        ∈ (initiateCall aliceOutgoing "u3" "Carol" false).2 :=
  (c3_amended aliceOutgoing "u3" "Carol" false).2 (by decide)

/-- C4 (amended): `acceptCall` is guarded by the presence of `caller`, a
truthy `roomId` and a truthy `userId` — not by `status = incoming`.  When
any of those is missing it is a no-op (state unchanged, nothing
published); whenever all are present, even in a state whose status is not
incoming, it transitions to connected and publishes an answer. -/
theorem c4_amended (s : CallState) :
    ((s.caller.isSome && jsTruthy s.roomId && jsTruthy s.userId) = false →
      acceptCall s = (s, [])) ∧
    ((s.caller.isSome && jsTruthy s.roomId && jsTruthy s.userId) = true →
      (acceptCall s).1.status = .connected ∧
      Effect.publish
          { type := .answer, callerId := (s.caller.getD ⟨"", ""⟩).id,
            receiverId := s.userId.getD "",
            roomId := some (s.roomId.getD ""),
            isVideo := some s.isVideoCall }
        ∈ (acceptCall s).2) := by
  refine ⟨fun h => acceptCall_noop s h, fun h => ?_⟩
  rw [acceptCall_fires s h]
  exact ⟨rfl, by simp⟩

theorem c4_amended_witness :
    (acceptCall bobStaleIdle).1.status = .connected ∧
      Effect.publish
          { type := .answer, callerId := "u1", receiverId := "u2",
            roomId := some "u1-u2", isVideo := some true }
        ∈ (acceptCall bobStaleIdle).2 := by
  have h := (c4_amended bobStaleIdle).2 (by decide)
  exact ⟨h.1, by simpa using h.2⟩

/-- C8: a received message in which neither `callerId` nor `receiverId`
equals the local identity leaves the coordinator completely unchanged; in
particular, a coordinator in `outgoing` receiving its own previously-sent
offer echoed back (its own id as callerId) performs no transition, since
an offer is actionable only by the addressed receiver while it is idle,
and answer/reject only by the originating caller. -/
theorem c8_filter_and_echo (s : CallState) (p : SignalPayload) :
    (p.callerId ≠ s.userId.getD "" → p.receiverId ≠ s.userId.getD "" →
      handleSignal s p = (s, [])) ∧
    (s.status = .outgoing → p.type = .offer →
      p.callerId = s.userId.getD "" → handleSignal s p = (s, [])) := by
  constructor
  · intro hc hr
    cases hp : p.type
    · exact handleSignal_offer_not_me s p hp hr
    · exact handleSignal_answer_not_me s p hp hc
    · exact handleSignal_reject_not_me s p hp hc
    · exact handleSignal_cancel_not_me s p hp hr
  · intro hst ht _
    exact handleSignal_offer_busy s p ht (by simp [hst])

theorem c8_filter_and_echo_witness :
    handleSignal aliceOutgoing offerU1U2 = (aliceOutgoing, []) :=
  (c8_filter_and_echo aliceOutgoing offerU1U2).2 (by decide) (by decide) (by decide)

/-! ### Helper lemmas for `unlockAudio` -/

theorem unlockAudioE_never_throws (s : CallState) (r : Bool) :
    ∃ out, unlockAudioE s r = Except.ok out := by
  unfold unlockAudioE
  split
  · exact ⟨_, rfl⟩
  · split
    · exact ⟨_, rfl⟩
    · exact ⟨_, rfl⟩

theorem unlockAudioState_eq (s : CallState) (r : Bool) :
    unlockAudioState s r =
      if (s.audioUnlocked || !s.ringtonePresent) = true then s
      else { s with audioUnlocked := true } := by
  by_cases h : (s.audioUnlocked || !s.ringtonePresent) = true
  · simp [unlockAudioState, unlockAudioE, h]
  · cases r <;> simp [unlockAudioState, unlockAudioE, h]

theorem unlockAudioState_flag (s : CallState) (r : Bool)
    (hp : s.ringtonePresent = true) :
    (unlockAudioState s r).audioUnlocked = true := by
  rw [unlockAudioState_eq]
  by_cases h : (s.audioUnlocked || !s.ringtonePresent) = true
  · rw [if_pos h]
    simpa [hp] using h
  · rw [if_neg h]

theorem unlockAudioState_noop (s : CallState) (r : Bool)
    (h : s.audioUnlocked = true) : unlockAudioState s r = s := by
  rw [unlockAudioState_eq, if_pos (by simp [h])]

theorem unlockAudioState_idem (s : CallState) (r1 r2 : Bool) :
    unlockAudioState (unlockAudioState s r1) r2 = unlockAudioState s r1 := by
  rw [unlockAudioState_eq s r1]
  by_cases h : (s.audioUnlocked || !s.ringtonePresent) = true
  · rw [if_pos h, unlockAudioState_eq, if_pos h]
  · rw [if_neg h]
    exact unlockAudioState_noop _ r2 rfl

theorem foldl_unlock_fixed (l : List Bool) (s : CallState)
    (h : s.audioUnlocked = true) : l.foldl unlockAudioState s = s := by
  induction l generalizing s with
  | nil => rfl
  | cons a t ih =>
    simp only [List.foldl_cons]
    rw [unlockAudioState_noop s a h]
    exact ih s h

/-- C9: `unlockAudio` never throws (the try/catch swallows the play
failure, so the result is always `ok`), any call performed while the
audio element is mounted leaves the unlocked flag true regardless of
whether the play attempt succeeded, any nonempty sequence of calls does
too, and repeated calls are idempotent. -/
theorem c9_unlock_idempotent (s : CallState) (oks : List Bool) :
    (∀ r : Bool, ∃ out, unlockAudioE s r = Except.ok out) ∧
    (∀ r : Bool, s.ringtonePresent = true →
      (unlockAudioState s r).audioUnlocked = true) ∧
    (s.ringtonePresent = true → oks ≠ [] →
      (oks.foldl unlockAudioState s).audioUnlocked = true) ∧
    (∀ r1 r2 : Bool,
      unlockAudioState (unlockAudioState s r1) r2 = unlockAudioState s r1) := by
  refine ⟨unlockAudioE_never_throws s, fun r hp => unlockAudioState_flag s r hp,
          fun hp hne => ?_, unlockAudioState_idem s⟩
  cases oks with
  | nil => exact absurd rfl hne
  | cons a t =>
    simp only [List.foldl_cons]
    have h1 := unlockAudioState_flag s a hp
    rw [foldl_unlock_fixed t _ h1]
    exact h1

theorem c9_unlock_idempotent_witness :
    (([true, false, false].foldl unlockAudioState aliceState).audioUnlocked = true) ∧
      unlockAudioState (unlockAudioState aliceState false) true =
        unlockAudioState aliceState false :=
  ⟨(c9_unlock_idempotent aliceState [true, false, false]).2.2.1 (by decide)
      (by decide),
   (c9_unlock_idempotent aliceState []).2.2.2 false true⟩

/-! ### Helper lemmas for the room identifier derivation -/

theorem charListLt_asymm (xs : List Char) :
    ∀ ys, charListLt xs ys = true → charListLt ys xs = false := by
  induction xs with
  | nil =>
    intro ys h
    cases ys with
    | nil => exact absurd h (by simp [charListLt])
    | cons d ds => rfl
  | cons c cs ih =>
    intro ys h
    cases ys with
    | nil => exact absurd h (by simp [charListLt])
    | cons d ds =>
      simp only [charListLt] at h ⊢
      by_cases h1 : c.toNat < d.toNat
      · rw [if_neg (Nat.lt_asymm h1), if_pos h1]
      · rw [if_neg h1] at h
        by_cases h2 : d.toNat < c.toNat
        · rw [if_pos h2] at h
          exact absurd h (by simp)
        · rw [if_neg h2] at h
          rw [if_neg h2, if_neg h1]
          exact ih ds h

theorem charListLt_eq_of_not_lt (xs : List Char) :
    ∀ ys, charListLt xs ys = false → charListLt ys xs = false → xs = ys := by
  induction xs with
  | nil =>
    intro ys h1 _
    cases ys with
    | nil => rfl
    | cons d ds => exact absurd h1 (by simp [charListLt])
  | cons c cs ih =>
    intro ys h1 h2
    cases ys with
    | nil => exact absurd h2 (by simp [charListLt])
    | cons d ds =>
      simp only [charListLt] at h1 h2
      by_cases hcd : c.toNat < d.toNat
      · rw [if_pos hcd] at h1
        exact absurd h1 (by simp)
      · by_cases hdc : d.toNat < c.toNat
        · rw [if_pos hdc] at h2
          exact absurd h2 (by simp)
        · rw [if_neg hcd, if_neg hdc] at h1
          rw [if_neg hdc, if_neg hcd] at h2
          have hn : c.toNat = d.toNat :=
            Nat.le_antisymm (Nat.not_lt.mp hdc) (Nat.not_lt.mp hcd)
          rw [Char.ext (UInt32.ext hn), ih ds h1 h2]

theorem string_eq_of_data (x y : String) (h : x.data = y.data) : x = y := by
  cases x
  cases y
  exact congrArg String.mk h

theorem sortJoin_comm (a b : String) : sortJoin a b = sortJoin b a := by
  unfold sortJoin jsStrLe
  by_cases h1 : charListLt b.data a.data = true
  · simp [h1, charListLt_asymm _ _ h1]
  · have h1f : charListLt b.data a.data = false := by simpa using h1
    by_cases h2 : charListLt a.data b.data = true
    · simp [h1f, h2]
    · have h2f : charListLt a.data b.data = false := by simpa using h2
      have hab : a = b :=
        string_eq_of_data a b (charListLt_eq_of_not_lt a.data b.data h2f h1f)
      rw [hab]

theorem append_sep_inj (sep : Char) :
    ∀ (xs us ys vs : List Char), sep ∉ xs → sep ∉ us →
      xs ++ sep :: ys = us ++ sep :: vs → xs = us ∧ ys = vs := by
  intro xs
  induction xs with
  | nil =>
    intro us ys vs _ hus h
    cases us with
    | nil => simpa using h
    | cons u ut =>
      simp only [List.nil_append, List.cons_append, List.cons.injEq] at h
      apply absurd _ hus
      rw [h.1]
      exact List.mem_cons_self u ut
  | cons x xt ih =>
    intro us ys vs hxs hus h
    cases us with
    | nil =>
      simp only [List.cons_append, List.nil_append, List.cons.injEq] at h
      apply absurd _ hxs
      rw [← h.1]
      exact List.mem_cons_self x xt
    | cons u ut =>
      simp only [List.cons_append, List.cons.injEq] at h
      obtain ⟨hxu, hrest⟩ := h
      have hxs2 : sep ∉ xt := fun hm => hxs (List.mem_cons_of_mem _ hm)
      have hus2 : sep ∉ ut := fun hm => hus (List.mem_cons_of_mem _ hm)
      obtain ⟨e1, e2⟩ := ih ut ys vs hxs2 hus2 hrest
      exact ⟨by rw [hxu, e1], e2⟩

theorem data_sep_join (a b : String) :
    (a ++ "-" ++ b).data = a.data ++ '-' :: b.data := by
  rw [String.data_append, String.data_append]
  simp

theorem sortJoin_inj (a b c d : String)
    (ha : ('-' : Char) ∉ a.data) (hb : ('-' : Char) ∉ b.data)
    (hc : ('-' : Char) ∉ c.data) (hd : ('-' : Char) ∉ d.data)
    (h : sortJoin a b = sortJoin c d) :
    (a = c ∧ b = d) ∨ (a = d ∧ b = c) := by
  unfold sortJoin at h
  by_cases h1 : jsStrLe a b = true <;> by_cases h2 : jsStrLe c d = true
  · rw [if_pos h1, if_pos h2] at h
    have hdt := congrArg String.data h
    rw [data_sep_join, data_sep_join] at hdt
    obtain ⟨e1, e2⟩ := append_sep_inj '-' a.data c.data b.data d.data ha hc hdt
    exact Or.inl ⟨string_eq_of_data _ _ e1, string_eq_of_data _ _ e2⟩
  · rw [if_pos h1, if_neg h2] at h
    have hdt := congrArg String.data h
    rw [data_sep_join, data_sep_join] at hdt
    obtain ⟨e1, e2⟩ := append_sep_inj '-' a.data d.data b.data c.data ha hd hdt
    exact Or.inr ⟨string_eq_of_data _ _ e1, string_eq_of_data _ _ e2⟩
  · rw [if_neg h1, if_pos h2] at h
    have hdt := congrArg String.data h
    rw [data_sep_join, data_sep_join] at hdt
    obtain ⟨e1, e2⟩ := append_sep_inj '-' b.data c.data a.data d.data hb hc hdt
    exact Or.inr ⟨string_eq_of_data _ _ e2, string_eq_of_data _ _ e1⟩
  · rw [if_neg h1, if_neg h2] at h
    have hdt := congrArg String.data h
    rw [data_sep_join, data_sep_join] at hdt
    obtain ⟨e1, e2⟩ := append_sep_inj '-' b.data d.data a.data c.data hb hd hdt
    exact Or.inl ⟨string_eq_of_data _ _ e2, string_eq_of_data _ _ e1⟩

/-- C7 (amended): the derived room identifier is order-independent for
all identifier strings, and it is unique per unordered pair of
participants provided the identifiers do not contain the separator
character `-` (uniqueness fails in general: see the counterexample with
identifiers containing the separator). -/
theorem c7_amended :
    (∀ a b : String, sortJoin a b = sortJoin b a) ∧
    (∀ a b c d : String,
      ('-' : Char) ∉ a.data → ('-' : Char) ∉ b.data →
      ('-' : Char) ∉ c.data → ('-' : Char) ∉ d.data →
      sortJoin a b = sortJoin c d →
      (a = c ∧ b = d) ∨ (a = d ∧ b = c)) :=
  ⟨sortJoin_comm, fun a b c d ha hb hc hd h => sortJoin_inj a b c d ha hb hc hd h⟩

theorem c7_amended_witness :
    sortJoin "u1" "u2" = sortJoin "u2" "u1" ∧
      (("u1" = "u1" ∧ "u2" = "u2") ∨ ("u1" = "u2" ∧ "u2" = "u1")) :=
  ⟨c7_amended.1 "u1" "u2",
   c7_amended.2 "u1" "u2" "u1" "u2" (by decide) (by decide) (by decide)
     (by decide) rfl⟩

/-! ### Helper lemmas for the room-less incoming call (C10) -/

theorem runEvents_cons (s : CallState) (e : CoordEvent) (es : List CoordEvent) :
    runEvents s (e :: es) =
      ((runEvents (stepEvent s e).1 es).1,
        (stepEvent s e).2 ++ (runEvents (stepEvent s e).1 es).2) := rfl

theorem c10_step (uid cid : String) (hne : cid ≠ uid) (s : CallState)
    (e : CoordEvent) (hinv : c10Inv uid s) (he : callScoped cid e = true) :
    c10Inv uid (stepEvent s e).1 ∧
    (∀ q, Effect.publish q ∈ (stepEvent s e).2 → q.type ≠ .answer) := by
  obtain ⟨hid, hroom, hrecv, hst⟩ := hinv
  cases e with
  | acceptE =>
    have hg : (s.caller.isSome && jsTruthy s.roomId && jsTruthy s.userId) = false := by
      simp [hroom, jsTruthy]
    simp only [stepEvent, acceptCall_noop s hg]
    exact ⟨⟨hid, hroom, hrecv, hst⟩, by simp⟩
  | rejectE =>
    by_cases hg : (s.caller.isSome && jsTruthy s.userId) = true
    · simp only [stepEvent, rejectCall_fires s hg]
      refine ⟨⟨hid, hroom, hrecv, Or.inl rfl⟩, ?_⟩
      intro q hq
      simp only [List.mem_cons, List.mem_singleton] at hq
      rcases hq with hq | hq | hq <;> simp_all
    · simp only [stepEvent, rejectCall_noop s (by simpa using hg)]
      exact ⟨⟨hid, hroom, hrecv, hst⟩, by simp⟩
  | cancelE =>
    have hg : (s.receiver.isSome && jsTruthy s.userId) = false := by
      simp [hrecv]
    simp only [stepEvent, cancelCall_noop s hg]
    exact ⟨⟨hid, hroom, hrecv, hst⟩, by simp⟩
  | signalE p =>
    simp only [callScoped, Bool.and_eq_true, beq_iff_eq] at he
    obtain ⟨hcid, hprm⟩ := he
    by_cases hu : jsTruthy s.userId = true
    · have hgd : s.userId.getD "" = uid := by rw [hid]; rfl
      cases hp : p.type
      · by_cases hr : p.receiverId = s.userId.getD ""
        · by_cases hidle : s.status = .idle
          · simp only [stepEvent, handleSignal_offer_fires s p hu hp hr hidle]
            refine ⟨⟨hid, hprm, hrecv, Or.inr rfl⟩, ?_⟩
            intro q hq
            unfold playRingFx at hq
            by_cases hrp : (s.ringtonePresent && s.audioUnlocked) = true <;>
              simp [hrp] at hq
          · simp only [stepEvent,
              handleSignal_offer_busy s p hp (by simpa using hidle)]
            exact ⟨⟨hid, hroom, hrecv, hst⟩, by simp⟩
        · simp only [stepEvent, handleSignal_offer_not_me s p hp hr]
          exact ⟨⟨hid, hroom, hrecv, hst⟩, by simp⟩
      · have hcn : p.callerId ≠ s.userId.getD "" := by rw [hgd, hcid]; exact hne
        simp only [stepEvent, handleSignal_answer_not_me s p hp hcn]
        exact ⟨⟨hid, hroom, hrecv, hst⟩, by simp⟩
      · have hcn : p.callerId ≠ s.userId.getD "" := by rw [hgd, hcid]; exact hne
        simp only [stepEvent, handleSignal_reject_not_me s p hp hcn]
        exact ⟨⟨hid, hroom, hrecv, hst⟩, by simp⟩
      · by_cases hr : p.receiverId = s.userId.getD ""
        · simp only [stepEvent, handleSignal_cancel_fires s p hu hp hr]
          exact ⟨⟨hid, hroom, hrecv, Or.inl rfl⟩, by simp⟩
        · simp only [stepEvent, handleSignal_cancel_not_me s p hp hr]
          exact ⟨⟨hid, hroom, hrecv, hst⟩, by simp⟩
    · simp only [stepEvent, handleSignal_no_user s p (by simpa using hu)]
      exact ⟨⟨hid, hroom, hrecv, hst⟩, by simp⟩

theorem c10_run (uid cid : String) (hne : cid ≠ uid) :
    ∀ (evs : List CoordEvent) (s : CallState), c10Inv uid s →
      (∀ e ∈ evs, callScoped cid e = true) →
      c10Inv uid (runEvents s evs).1 ∧
      (∀ q, Effect.publish q ∈ (runEvents s evs).2 → q.type ≠ .answer) := by
  intro evs
  induction evs with
  | nil =>
    intro s hinv _
    exact ⟨hinv, by simp [runEvents]⟩
  | cons e es ih =>
    intro s hinv hall
    have h1 := c10_step uid cid hne s e hinv (hall e (List.mem_cons_self e es))
    have h2 := ih (stepEvent s e).1 h1.1
      (fun x hx => hall x (List.mem_cons_of_mem _ hx))
    rw [runEvents_cons]
    refine ⟨h2.1, ?_⟩
    intro q hq
    rcases List.mem_append.mp hq with hq | hq
    · exact h1.2 q hq
    · exact h2.2 q hq

theorem c10_exit (uid cid : String) (hne : cid ≠ uid) (s : CallState)
    (e : CoordEvent) (hinv : c10Inv uid s) (he : callScoped cid e = true)
    (hinc : s.status = .incoming)
    (hchg : (stepEvent s e).1.status ≠ .incoming) :
    e = .rejectE ∨ ∃ q, e = .signalE q ∧ q.type = .cancel := by
  obtain ⟨hid, hroom, hrecv, _⟩ := hinv
  cases e with
  | acceptE =>
    have hg : (s.caller.isSome && jsTruthy s.roomId && jsTruthy s.userId) = false := by
      simp [hroom, jsTruthy]
    rw [stepEvent, acceptCall_noop s hg] at hchg
    exact absurd hinc hchg
  | rejectE => exact Or.inl rfl
  | cancelE =>
    have hg : (s.receiver.isSome && jsTruthy s.userId) = false := by
      simp [hrecv]
    rw [stepEvent, cancelCall_noop s hg] at hchg
    exact absurd hinc hchg
  | signalE p =>
    simp only [callScoped, Bool.and_eq_true, beq_iff_eq] at he
    obtain ⟨hcid, _⟩ := he
    by_cases hu : jsTruthy s.userId = true
    · have hgd : s.userId.getD "" = uid := by rw [hid]; rfl
      cases hp : p.type
      · rw [stepEvent, handleSignal_offer_busy s p hp (by simp [hinc])] at hchg
        exact absurd hinc hchg
      · have hcn : p.callerId ≠ s.userId.getD "" := by rw [hgd, hcid]; exact hne
        rw [stepEvent, handleSignal_answer_not_me s p hp hcn] at hchg
        exact absurd hinc hchg
      · have hcn : p.callerId ≠ s.userId.getD "" := by rw [hgd, hcid]; exact hne
        rw [stepEvent, handleSignal_reject_not_me s p hp hcn] at hchg
        exact absurd hinc hchg
      · exact Or.inr ⟨p, rfl, hp⟩
    · rw [stepEvent, handleSignal_no_user s p (by simpa using hu)] at hchg
      exact absurd hinc hchg

/-- C10: an offer addressed to the local identity whose `roomId` field is
absent (or empty — the source's `payload.roomId || null` collapses both
to null) arriving in idle still transitions the coordinator to
`incoming`, storing `roomId` as null and the sender as caller.  In the
resulting session, under every sequence of local actions and of further
signals from that caller, `acceptCall` is permanently a no-op (its roomId
guard fails): the status never reaches `connected`, no answer message is
ever published, and the status leaves `incoming` only through a local
`rejectCall` or a remote cancel. -/
theorem c10_roomless_offer (uid cid : String) (s : CallState) (p : SignalPayload)
    (huid : uid ≠ "") (hne : cid ≠ uid)
    (hsid : s.userId = some uid) (hidle : s.status = .idle)
    (hrv : s.receiver = none)
    (ht : p.type = .offer) (hr : p.receiverId = uid) (hc : p.callerId = cid)
    (hrm : jsOrNull p.roomId = none) :
    (handleSignal s p).1.status = .incoming ∧
    (handleSignal s p).1.roomId = none ∧
    (handleSignal s p).1.caller =
      some ⟨cid, jsOrDefault p.callerName "Unknown"⟩ ∧
    (∀ evs, (∀ e ∈ evs, callScoped cid e = true) →
      (runEvents (handleSignal s p).1 evs).1.status ≠ .connected ∧
      acceptCall (runEvents (handleSignal s p).1 evs).1 =
        ((runEvents (handleSignal s p).1 evs).1, []) ∧
      (∀ q, Effect.publish q ∈ (runEvents (handleSignal s p).1 evs).2 →
        q.type ≠ .answer)) ∧
    (∀ evs e, (∀ x ∈ evs, callScoped cid x = true) →
      callScoped cid e = true →
      (runEvents (handleSignal s p).1 evs).1.status = .incoming →
      (stepEvent (runEvents (handleSignal s p).1 evs).1 e).1.status ≠ .incoming →
      e = .rejectE ∨ ∃ q, e = .signalE q ∧ q.type = .cancel) := by
  have hu : jsTruthy s.userId = true := by
    rw [hsid]
    simpa [jsTruthy] using huid
  have hgd : s.userId.getD "" = uid := by rw [hsid]; rfl
  have hfire := handleSignal_offer_fires s p hu ht (by rw [hgd, hr]) hidle
  have hinv : c10Inv uid (handleSignal s p).1 := by
    rw [hfire]
    exact ⟨hsid, hrm, hrv, Or.inr rfl⟩
  refine ⟨by rw [hfire], hinv.2.1, by rw [hfire]; simp [hc], ?_, ?_⟩
  · intro evs hall
    have hrun := c10_run uid cid hne evs _ hinv hall
    refine ⟨?_, ?_, hrun.2⟩
    · rcases hrun.1.2.2.2 with h | h <;> simp [h]
    · exact acceptCall_noop _ (by simp [hrun.1.2.1, jsTruthy])
  · intro evs e hall he hinc hchg
    exact c10_exit uid cid hne _ e (c10_run uid cid hne evs _ hinv hall).1 he
      hinc hchg

theorem c10_roomless_offer_witness :
    (handleSignal bobState roomlessOffer).1.status = .incoming ∧
      (handleSignal bobState roomlessOffer).1.roomId = none ∧
      acceptCall (runEvents (handleSignal bobState roomlessOffer).1 [.acceptE]).1 =
        ((runEvents (handleSignal bobState roomlessOffer).1 [.acceptE]).1, []) := by
  have h := c10_roomless_offer "u2" "u1" bobState roomlessOffer (by decide)
    (by decide) rfl rfl rfl rfl rfl rfl rfl
  exact ⟨h.1, h.2.1, (h.2.2.2.1 [.acceptE] (by decide)).2.1⟩

end VeriTalk
